import Mathlib

/-!
# Verification of the slack-mcp-ts security gateway core

Shallow embedding of `src/index.ts`: the directory cache, the identifier
resolution / security policy (`isBlockedChannel`, `resolveChannelId`),
the five tool handlers up to their upstream calls, and the tabular (CSV)
formatter.  JavaScript semantics that matter (falsy `||` defaults,
`Map` insertion-order iteration and in-place update, `String.replace`
with a string pattern replacing only the first occurrence, `split`,
substring `includes`) are modelled explicitly.
-/

set_option autoImplicit false

namespace SlackMcp

/-! ## JavaScript string/utility primitives -/

/-- JS `a || b` for an optional string where the empty string is falsy. -/
def jsOrS (a : Option String) (b : String) : String :=
  match a with
  | none => b
  | some s => if s = "" then b else s

/-- JS `a || b` for an optional number where `0` is falsy. -/
def jsOrN (a : Option Nat) (b : Nat) : Nat :=
  match a with
  | none => b
  | some n => if n = 0 then b else n

/-- JS `s.startsWith(p)` for a one-character prefix `p`. -/
def startsWithChar (s : String) (c : Char) : Bool :=
  match s.data with
  | [] => false
  | x :: _ => x == c

/-- JS `s.substring(1)`. -/
def strDrop1 (s : String) : String :=
  ⟨s.data.drop 1⟩

/-- Core of JS `s.split(sep)` for a one-character separator, over char lists. -/
def splitOnCharL (c : Char) : List Char → List (List Char)
  | [] => [[]]
  | x :: rest =>
    let r := splitOnCharL c rest
    if x = c then [] :: r
    else
      match r with
      | h :: t => (x :: h) :: t
      | [] => [[x]]

/-- JS `s.split(",")`. -/
def strSplitComma (s : String) : List String :=
  (splitOnCharL ',' s.data).map (fun l => ⟨l⟩)

/-- Substring test over char lists (`needle` occurs contiguously in the list). -/
def listContainsSub (needle : List Char) : List Char → Bool
  | [] => needle.isEmpty
  | c :: rest => needle.isPrefixOf (c :: rest) || listContainsSub needle rest

/-- JS `s.includes(sub)`. -/
def strIncludes (s sub : String) : Bool :=
  listContainsSub sub.data s.data

/-- JS `array.join(sep)`. -/
def joinWith (sep : String) : List String → String
  | [] => ""
  | [s] => s
  | s :: rest => s ++ sep ++ joinWith sep rest

/-- Core of JS `s.replace("#", "")`: a string pattern replaces only the
first occurrence; for the one-character pattern this removes the first
occurrence of that character. -/
def removeFirstChar (c : Char) : List Char → List Char
  | [] => []
  | x :: rest => if x = c then rest else x :: removeFirstChar c rest

/-- JS `name.replace("#", "")` as used on channel names. -/
def removeFirstHash (s : String) : String :=
  ⟨removeFirstChar '#' s.data⟩

/-- Core of JS `s.replace(/"/g, '""')`: double every double-quote character. -/
def escapeQuotesL : List Char → List Char
  | [] => []
  | c :: rest => if c = '"' then '"' :: '"' :: escapeQuotesL rest else c :: escapeQuotesL rest

/-- JS `s.replace(/"/g, '""')`. -/
def replaceQuotes (s : String) : String :=
  ⟨escapeQuotesL s.data⟩

/-! ## Insertion-ordered string-keyed maps (JS `Map`)

A JS `Map` iterates in insertion order of the *first* insertion of each key,
and `set` on an existing key updates the entry in place.  We model it as an
association list without duplicate keys among entries produced by `mapSet`. -/

/-- JS `map.get(k)` (first entry with the key; entries are unique when the
list was built with `mapSet`). -/
def mapGet {α : Type} (m : List (String × α)) (k : String) : Option α :=
  match m with
  | [] => none
  | (k', v) :: rest => if k' = k then some v else mapGet rest k

/-- JS `map.set(k, v)`: update in place when the key exists, else append. -/
def mapSet {α : Type} (m : List (String × α)) (k : String) (v : α) : List (String × α) :=
  if m.any (fun p => p.1 == k) then m.map (fun p => if p.1 = k then (k, v) else p)
  else m ++ [(k, v)]

/-! ## Data model (`Channel`, `User`, cache state) -/

structure Channel where
  id : String
  name : String
  is_private : Bool
  is_im : Bool
  is_mpim : Bool
  topic : Option String
  purpose : Option String
  num_members : Option Nat
  deriving DecidableEq

structure User where
  id : String
  name : String
  real_name : String
  deriving DecidableEq

/-- The four lookup tables of `SlackMcpServer` (the directory cache). -/
structure CacheState where
  channelsById : List (String × Channel)
  channelsByName : List (String × Channel)
  usersById : List (String × User)
  usersByName : List (String × User)
  deriving DecidableEq

def emptyCache : CacheState :=
  { channelsById := [], channelsByName := [], usersById := [], usersByName := [] }

/-! ## Configuration (`SLACK_MCP_ADD_MESSAGE_TOOL`) -/

/-- `process.env.SLACK_MCP_ADD_MESSAGE_TOOL === "true" || ... === "1"`. -/
def ADD_MESSAGE_ENABLED (env : Option String) : Bool :=
  env == some "true" || env == some "1"

/-- `env?.startsWith("C") ? env.split(",") : null`. -/
def ALLOWED_CHANNELS (env : Option String) : Option (List String) :=
  match env with
  | some s => if startsWithChar s 'C' then some (strSplitComma s) else none
  | none => none

/-! ## Security policy -/

def dmAtMsg : String := "Direct messages (@username) are not accessible for security reasons"

def dmDMsg : String := "Direct messages (D...) are not accessible for security reasons"

def dmFlagMsg : String := "Direct messages are not accessible for security reasons"

def notFoundMsg (input : String) : String := "Channel " ++ input ++ " not found"

def postingDisabledMsg : String :=
  "Message posting is disabled. Set SLACK_MCP_ADD_MESSAGE_TOOL=true or to a list of channel IDs."

def notAllowedMsg (channelId : String) : String :=
  "Posting to channel " ++ channelId ++ " is not allowed."

/-- `isBlockedChannel(channelId, channelName?)` from the source: the two
syntactic checks plus the cached-flag check, OR'd together. -/
def isBlockedChannel (st : CacheState) (channelId : String) (channelName : Option String) : Bool :=
  if (channelName.map (fun n => startsWithChar n '@')).getD false then true
  else if startsWithChar channelId 'D' then true
  else
    match mapGet st.channelsById channelId with
    | some channel => channel.is_im || channel.is_mpim
    | none => false

/-- `resolveChannelId(input)` from the source.  `throw new Error(msg)` is
modelled as `Except.error msg`. -/
def resolveChannelId (st : CacheState) (input : String) : Except String String :=
  if startsWithChar input '@' then .error dmAtMsg
  else if startsWithChar input 'D' then .error dmDMsg
  else if startsWithChar input '#' then
    match mapGet st.channelsByName input with
    | none => .error (notFoundMsg input)
    | some channel =>
      if channel.is_im || channel.is_mpim then .error dmFlagMsg
      else .ok channel.id
  else
    match mapGet st.channelsById input with
    | some channel =>
      if channel.is_im || channel.is_mpim then .error dmFlagMsg
      else .ok input
    | none => .ok input

/-! ## Cache build (`loadCache`)

The remote service is a black box; a run of `loadCache` is determined by the
sequence of pages the channel-listing and user-listing endpoints return.
Raw records carry the fields the source reads off the wire. -/

/-- A raw channel record as returned by `conversations.list`.  Optional
booleans model JS `ch.is_private || false` etc. on possibly-missing fields. -/
structure RawChannel where
  id : String
  name : String
  is_private : Option Bool
  is_im : Option Bool
  is_mpim : Option Bool
  topic : Option String
  purpose : Option String
  num_members : Option Nat
  deriving DecidableEq

/-- A raw member record as returned by `users.list`. -/
structure RawUser where
  id : String
  name : String
  real_name : Option String
  deleted : Bool
  is_bot : Bool
  deriving DecidableEq

/-- The `Channel` value `loadCache` builds from a raw record
(name gets the `#` prefix; missing booleans default to `false`). -/
def channelOfRaw (ch : RawChannel) : Channel :=
  { id := ch.id
    name := "#" ++ ch.name
    is_private := ch.is_private.getD false
    is_im := ch.is_im.getD false
    is_mpim := ch.is_mpim.getD false
    topic := ch.topic
    purpose := ch.purpose
    num_members := ch.num_members }

/-- The `User` value `loadCache` builds from a raw record
(`real_name: u.real_name || u.name`, with the empty string falsy). -/
def userOfRaw (u : RawUser) : User :=
  { id := u.id, name := u.name, real_name := jsOrS u.real_name u.name }

/-- One iteration of the channel-population loop of `loadCache`. -/
def addChannelRecord (st : CacheState) (ch : RawChannel) : CacheState :=
  let c := channelOfRaw ch
  { st with
    channelsById := mapSet st.channelsById c.id c
    channelsByName := mapSet st.channelsByName c.name c }

/-- One iteration of the user-population loop of `loadCache`
(`if (u.deleted || u.is_bot) continue`). -/
def addUserRecord (st : CacheState) (u : RawUser) : CacheState :=
  if u.deleted || u.is_bot then st
  else
    let usr := userOfRaw u
    { st with
      usersById := mapSet st.usersById usr.id usr
      usersByName := mapSet st.usersByName ("@" ++ usr.name) usr }

/-- `loadCache()`: paginate channels, then users, populating the four tables
entry by entry.  `chanPages`/`userPages` are the page sequences the remote
endpoints return (the cursor loop visits them in order until exhaustion). -/
def loadCache (chanPages : List (List RawChannel)) (userPages : List (List RawUser)) : CacheState :=
  let st := chanPages.foldl (fun st page => page.foldl addChannelRecord st) emptyCache
  userPages.foldl (fun st page => page.foldl addUserRecord st) st

/-- The channels a cache build processes, in processing order (pages
concatenated, converted as `loadCache` converts them). -/
def cacheChannels (chanPages : List (List RawChannel)) : List Channel :=
  chanPages.flatten.map channelOfRaw

/-- The users a cache build processes, in processing order (pages
concatenated, deleted and bot accounts skipped, converted as `loadCache`
converts them). -/
def cacheUsers (userPages : List (List RawUser)) : List User :=
  ((userPages.flatten).filter (fun u => !(u.deleted || u.is_bot))).map userOfRaw

/-- `getUserName(userId)`: `user?.real_name || user?.name || userId`
(JS falsy chain: the empty string falls through). -/
def getUserName (st : CacheState) (userId : String) : String :=
  match mapGet st.usersById userId with
  | some user =>
    if user.real_name ≠ "" then user.real_name
    else if user.name ≠ "" then user.name
    else userId
  | none => userId

/-! ## Tabular (CSV) formatter -/

/-- Rendering of a free-text field: wrap in double quotes with every internal
double quote doubled — the `"${(x || "").replace(/"/g, '""')}"` pattern. -/
def quoteField (s : String) : String :=
  "\"" ++ replaceQuotes s ++ "\""

/-- One data row of the `channels_list` / channels-resource CSV. -/
def renderChannelRow (c : Channel) : String :=
  c.id ++ "," ++ c.name ++ "," ++ quoteField (jsOrS c.topic "") ++ ","
    ++ quoteField (jsOrS c.purpose "") ++ "," ++ Nat.repr (jsOrN c.num_members 0)

/-- Parser for a quoted CSV field under standard quote-doubling rules:
the tail after the opening quote, undoubling internal quotes, requiring the
closing quote to end the field. -/
def unescapeQuoted : List Char → Option (List Char)
  | [] => none
  | c :: rest =>
    if c = '"' then
      match rest with
      | [] => some []
      | c2 :: rest2 =>
        if c2 = '"' then (unescapeQuoted rest2).map (fun l => '"' :: l)
        else none
    else (unescapeQuoted rest).map (fun l => c :: l)

/-- Parse a complete rendered free-text field back to the original string. -/
def parseQuotedField (s : String) : Option String :=
  match s.data with
  | '"' :: rest => (unescapeQuoted rest).map (fun l => ⟨l⟩)
  | _ => none

/-! ## Tool handlers

Each handler is split at its upstream call: a `...Call` function computes
everything up to the remote request and returns either the tool error
(`Except.error`, the thrown `Error` caught at the dispatch boundary) or the
exact upstream request that is performed.  Success content is derived only
from a performed upstream call's response. -/

/-- `handleChannelsList` channel collection: iterate the cache in insertion
order, skip flagged channels, filter by the requested types, stop at the
limit. -/
def collectChannels (types : String) (limit : Nat) :
    List (String × Channel) → List Channel → List Channel
  | [], acc => acc
  | (_, channel) :: rest, acc =>
    if channel.is_im || channel.is_mpim then collectChannels types limit rest acc
    else
      let acc' :=
        if strIncludes types "public_channel" && !channel.is_private then acc ++ [channel]
        else if strIncludes types "private_channel" && channel.is_private then acc ++ [channel]
        else acc
      if limit ≤ acc'.length then acc' else collectChannels types limit rest acc'

/-- The channel list `handleChannelsList` builds (types re-validated by
split/filter/join; limit defaulted and clamped to 1000). -/
def channelsListChannels (st : CacheState) (typesArg : Option String) (limitArg : Option Nat) :
    List Channel :=
  let types := joinWith ","
    ((strSplitComma (jsOrS typesArg "public_channel,private_channel")).filter
      (fun t => t == "public_channel" || t == "private_channel"))
  let limit := min (jsOrN limitArg 100) 1000
  collectChannels types limit st.channelsById []

/-- `handleChannelsList`: the CSV text returned to the caller. -/
def handleChannelsList (st : CacheState) (typesArg : Option String) (limitArg : Option Nat) :
    String :=
  joinWith "\n" ("id,name,topic,purpose,members" ::
    (channelsListChannels st typesArg limitArg).map renderChannelRow)

/-- The channels resource (`slack://<workspace>/channels`): all cached
channels with the flagged ones filtered out. -/
def resourceChannels (st : CacheState) : List Channel :=
  (st.channelsById.map Prod.snd).filter (fun c => !c.is_im && !c.is_mpim)

/-- The upstream `conversations.history` request. -/
structure HistoryCall where
  channel : String
  limit : Nat
  cursor : Option String
  deriving DecidableEq

/-- `handleConversationsHistory` up to its upstream call: resolve the target
(before anything else), clamp the limit, and issue the request. -/
def handleConversationsHistoryCall (st : CacheState) (channel_id : String)
    (limitArg : Option Nat) (cursor : Option String) : Except String HistoryCall :=
  (resolveChannelId st channel_id).map
    (fun cid => { channel := cid, limit := min (jsOrN limitArg 50) 100, cursor := cursor })

/-- The upstream `conversations.replies` request. -/
structure RepliesCall where
  channel : String
  ts : String
  limit : Nat
  cursor : Option String
  deriving DecidableEq

/-- `handleConversationsReplies` up to its upstream call. -/
def handleConversationsRepliesCall (st : CacheState) (channel_id thread_ts : String)
    (limitArg : Option Nat) (cursor : Option String) : Except String RepliesCall :=
  (resolveChannelId st channel_id).map
    (fun cid => { channel := cid, ts := thread_ts, limit := min (jsOrN limitArg 50) 100,
                  cursor := cursor })

/-- The upstream `search.messages` request. -/
structure SearchCall where
  query : String
  count : Nat
  deriving DecidableEq

/-- The `from:` clause of `handleConversationsSearch`.  The guard
`if (args.from_user)` is JS truthiness: a missing argument and the empty
string alike add no clause. -/
def applyFromUser (st : CacheState) (q : String) (from_user : Option String) : String :=
  match from_user with
  | none => q
  | some f =>
    if f = "" then q
    else
      let userName :=
        if startsWithChar f '@' then strDrop1 f
        else
          match mapGet st.usersById f with
          | some u => if u.name = "" then f else u.name
          | none => f
      q ++ " from:" ++ userName

/-- `handleConversationsSearch` up to its upstream call.  The guard
`if (args.channel)` is JS truthiness: a missing channel argument and the
empty string alike skip the filter entirely (no resolution, no `in:`
clause).  A truthy filter is resolved first (and may reject); a resolved id
found in the cache adds an `in:` clause, an id absent from the cache adds
none. -/
def handleConversationsSearchCall (st : CacheState) (query : String)
    (channel from_user : Option String) (limitArg : Option Nat) : Except String SearchCall :=
  let count := min (jsOrN limitArg 20) 100
  match channel with
  | some chStr =>
    if chStr = "" then .ok { query := applyFromUser st query from_user, count := count }
    else
      (resolveChannelId st chStr).map (fun cid =>
        let q1 :=
          match mapGet st.channelsById cid with
          | some channel => query ++ " in:" ++ removeFirstHash channel.name
          | none => query
        { query := applyFromUser st q1 from_user, count := count })
  | none => .ok { query := applyFromUser st query from_user, count := count }

/-- The upstream `chat.postMessage` request. -/
structure PostCall where
  channel : String
  text : String
  thread_ts : Option String
  deriving DecidableEq

/-- `handleAddMessage` up to its upstream call: enablement check first
(before any resolution), then target resolution, then the allow-list check. -/
def handleAddMessage (env : Option String) (st : CacheState)
    (channel_id text : String) (thread_ts : Option String) : Except String PostCall :=
  if !ADD_MESSAGE_ENABLED env && (ALLOWED_CHANNELS env).isNone then
    .error postingDisabledMsg
  else
    (resolveChannelId st channel_id).bind (fun channelId =>
      match ALLOWED_CHANNELS env with
      | some allowed =>
        if allowed.contains channelId then
          .ok { channel := channelId, text := text, thread_ts := thread_ts }
        else .error (notAllowedMsg channelId)
      | none => .ok { channel := channelId, text := text, thread_ts := thread_ts })

/-- A raw message as returned by `conversations.history` / `.replies`. -/
structure RawMessage where
  ts : String
  user : Option String
  text : Option String
  thread_ts : Option String
  reactions : Option (List (String × Nat))
  deriving DecidableEq

/-- A mapped row of the history table. -/
structure HistoryRow where
  ts : String
  user : String
  text : Option String
  thread_ts : Option String
  reactions : Option String
  cursor : String
  deriving DecidableEq

/-- The per-message mapping of `handleConversationsHistory`:
`user: this.getUserName(m.user || "")`, reactions joined with `|`. -/
def historyRowOfMessage (st : CacheState) (m : RawMessage) : HistoryRow :=
  { ts := m.ts
    user := getUserName st (jsOrS m.user "")
    text := m.text
    thread_ts := m.thread_ts
    reactions := m.reactions.map (fun rs =>
      joinWith "|" (rs.map (fun r => r.1 ++ ":" ++ Nat.repr r.2)))
    cursor := "" }

/-- A mapped row of the replies table. -/
structure ReplyRow where
  ts : String
  user : String
  text : Option String
  cursor : String
  deriving DecidableEq

/-- The per-message mapping of `handleConversationsReplies`. -/
def replyRowOfMessage (st : CacheState) (m : RawMessage) : ReplyRow :=
  { ts := m.ts
    user := getUserName st (jsOrS m.user "")
    text := m.text
    cursor := "" }

/-- One data row of the history CSV (free-text `text` field quoted with
doubling; `ts`, `thread_ts`, `cursor` unquoted). -/
def renderHistoryRow (m : HistoryRow) : String :=
  m.ts ++ ",\"" ++ m.user ++ "\"," ++ quoteField (jsOrS m.text "") ++ ","
    ++ (jsOrS m.thread_ts "") ++ ",\"" ++ (jsOrS m.reactions "") ++ "\"," ++ m.cursor

/-! ## Spec-side models (for refinement claims)

These definitions follow the specification's words, to be compared with the
source-derived definitions above. -/

/-- The three-way security classification outcome of `resolveTarget` as the
spec describes it. -/
inductive TargetOutcome where
  | resolved (id : String)
  | rejectedDM
  | notFound
  deriving DecidableEq

/-- Modelled from the spec (§4.2): the four-step `resolveTarget` algorithm —
`@` rejected before any cache lookup; the `D` prefix rejected syntactically;
`#` looked up by name (unknown name is a distinct not-found outcome, a
flagged match is rejected, otherwise the id is returned); any other input is
a raw identifier, rejected when cached and flagged, passed through otherwise. -/
def resolveTarget_specModel (st : CacheState) (input : String) : TargetOutcome :=
  if startsWithChar input '@' then .rejectedDM
  else if startsWithChar input 'D' then .rejectedDM
  else if startsWithChar input '#' then
    match mapGet st.channelsByName input with
    | none => .notFound
    | some ch => if ch.is_im || ch.is_mpim then .rejectedDM else .resolved ch.id
  else
    match mapGet st.channelsById input with
    | some ch => if ch.is_im || ch.is_mpim then .rejectedDM else .resolved input
    | none => .resolved input

/-- Map the concrete result of `resolveChannelId` to the spec's outcome:
an error is a security rejection exactly when its message is one of the three
fixed direct-message constants, and a not-found outcome otherwise. -/
def outcomeOfResolve (r : Except String String) : TargetOutcome :=
  match r with
  | .ok i => .resolved i
  | .error m => if m = dmAtMsg ∨ m = dmDMsg ∨ m = dmFlagMsg then .rejectedDM else .notFound

/-- Modelled from the claim's classification: an identifier is a (group)
direct message when it carries the `@` or `D` syntactic prefix, or when the
channel it addresses (by name for `#` inputs, by id otherwise) is cached
with `is_im`/`is_mpim` set. -/
def classifiedAsBlocked (st : CacheState) (input : String) : Bool :=
  startsWithChar input '@' || startsWithChar input 'D' ||
    (match (if startsWithChar input '#' then mapGet st.channelsByName input
            else mapGet st.channelsById input) with
     | some c => c.is_im || c.is_mpim
     | none => false)

/-- `Except.isOk` (explicit, to keep upstream-call statements readable). -/
def isOkE {ε α : Type} : Except ε α → Bool
  | .ok _ => true
  | .error _ => false

instance exceptDecEq {ε α : Type} [DecidableEq ε] [DecidableEq α] : DecidableEq (Except ε α) :=
  fun a b =>
  match a, b with
  | .ok x, .ok y =>
    match decEq x y with
    | isTrue h => isTrue (by subst h; rfl)
    | isFalse h => isFalse (by intro he; cases he; exact h rfl)
  | .error x, .error y =>
    match decEq x y with
    | isTrue h => isTrue (by subst h; rfl)
    | isFalse h => isFalse (by intro he; cases he; exact h rfl)
  | .ok _, .error _ => isFalse (by intro he; cases he)
  | .error _, .ok _ => isFalse (by intro he; cases he)

/-! ## Concrete cache states for witnesses and counterexamples -/

/-- A representative cache built by `loadCache` from one channel page and one
user page: a public channel, a private channel, a group DM reachable only via
its cached `is_mpim` flag, a DM reachable only via its cached `is_im` flag,
and two users (one without a `real_name` on the wire). -/
def sampleCache : CacheState :=
  loadCache
    [[{ id := "C100", name := "general", is_private := some false, is_im := some false,
        is_mpim := some false, topic := some "hello", purpose := none, num_members := some 7 },
      { id := "C200", name := "secret", is_private := some true, is_im := none,
        is_mpim := none, topic := none, purpose := some "shh", num_members := some 2 },
      { id := "G999", name := "mpdm-trio", is_private := some true, is_im := some false,
        is_mpim := some true, topic := none, purpose := none, num_members := some 3 },
      { id := "X111", name := "im-pair", is_private := some true, is_im := some true,
        is_mpim := some false, topic := none, purpose := none, num_members := some 2 }]]
    [[{ id := "U1", name := "alice", real_name := some "Alice A", deleted := false,
        is_bot := false },
      { id := "U2", name := "bob", real_name := none, deleted := false, is_bot := false },
      { id := "U3", name := "deactivated", real_name := some "Gone", deleted := true,
        is_bot := false }]]

/-- A cache holding only the two flag-blocked conversations of
`sampleCache` (used to exhibit the shared flag-rejection message). -/
def flaggedCache : CacheState :=
  loadCache
    [[{ id := "G999", name := "mpdm-trio", is_private := some true, is_im := some false,
        is_mpim := some true, topic := none, purpose := none, num_members := some 3 },
      { id := "X111", name := "im-pair", is_private := some true, is_im := some true,
        is_mpim := some false, topic := none, purpose := none, num_members := some 2 }]]
    []

/-! ## Helper lemmas -/

theorem isOkE_error {ε α : Type} (m : ε) : isOkE (Except.error m : Except ε α) = false := rfl

theorem exceptMap_error {ε α β : Type} (f : α → β) (m : ε) :
    (Except.error m : Except ε α).map f = .error m := rfl

theorem exceptBind_error {ε α β : Type} (f : α → Except ε β) (m : ε) :
    (Except.error m : Except ε α).bind f = .error m := rfl

theorem exceptBind_ok {ε α β : Type} (f : α → Except ε β) (a : α) :
    (Except.ok a : Except ε α).bind f = f a := rfl

/-- The three security-rejection messages all start with the letter `D`. -/
theorem dm_msgs_head :
    dmAtMsg.data.head? = some 'D' ∧ dmDMsg.data.head? = some 'D' ∧
      dmFlagMsg.data.head? = some 'D' :=
  ⟨rfl, rfl, rfl⟩

/-- The not-found message starts with the letter `C`. -/
theorem notFoundMsg_head (input : String) : (notFoundMsg input).data.head? = some 'C' := by
  show (("Channel " : String) ++ input ++ " not found").data.head? = some 'C'
  rw [String.data_append, String.data_append]
  rfl

/-- The not-found message is distinct from every message whose first letter
is `D` — in particular from each security-rejection constant. -/
theorem notFoundMsg_ne (input m : String) (hm : m.data.head? = some 'D') :
    notFoundMsg input ≠ m := by
  intro he
  have h1 := notFoundMsg_head input
  rw [he, hm] at h1
  exact absurd h1 (by decide)

-- concrete evaluation checks of the embedding
example : resolveChannelId emptyCache "@alice" = .error dmAtMsg := by decide
example : resolveChannelId emptyCache "D12345" = .error dmDMsg := by decide
example : resolveChannelId emptyCache "#general" = .error (notFoundMsg "#general") := by decide
example : resolveChannelId emptyCache "C123" = .ok "C123" := by decide
example :
    loadCache [[{ id := "C1", name := "general", is_private := some false, is_im := none,
                  is_mpim := none, topic := none, purpose := none, num_members := some 3 }]] []
      = { channelsById :=
            [("C1", { id := "C1", name := "#general", is_private := false, is_im := false,
                      is_mpim := false, topic := none, purpose := none, num_members := some 3 })]
          channelsByName :=
            [("#general", { id := "C1", name := "#general", is_private := false, is_im := false,
                            is_mpim := false, topic := none, purpose := none,
                            num_members := some 3 })]
          usersById := []
          usersByName := [] } := by decide
example : quoteField "He said \x22hi\x22" = "\x22He said \x22\x22hi\x22\x22\x22" := by decide
example : parseQuotedField "\x22He said \x22\x22hi\x22\x22\x22" = some "He said \x22hi\x22" := by decide

/-! ## Claim theorems -/

/-- C2: `resolveChannelId` follows exactly the four-step algorithm of the
spec for every input string and every cache state: `@` inputs are rejected
before any cache lookup, `D`-prefixed inputs are rejected syntactically,
`#` inputs are looked up by name (unknown names give a not-found error
distinct from every security rejection, flagged matches are rejected,
otherwise the resolved id is returned), and all other inputs are raw
identifiers (rejected when cached with `is_im`/`is_mpim` set, passed
through unchanged when absent from the cache). -/
theorem resolveChannelId_follows_spec (st : CacheState) (input : String) :
    outcomeOfResolve (resolveChannelId st input) = resolveTarget_specModel st input := by
  by_cases h1 : startsWithChar input '@' = true
  · simp [resolveChannelId, resolveTarget_specModel, outcomeOfResolve, h1]
  · by_cases h2 : startsWithChar input 'D' = true
    · simp [resolveChannelId, resolveTarget_specModel, outcomeOfResolve, h1, h2]
    · by_cases h3 : startsWithChar input '#' = true
      · cases hn : mapGet st.channelsByName input with
        | none =>
          have e1 := notFoundMsg_ne input dmAtMsg dm_msgs_head.1
          have e2 := notFoundMsg_ne input dmDMsg dm_msgs_head.2.1
          have e3 := notFoundMsg_ne input dmFlagMsg dm_msgs_head.2.2
          simp [resolveChannelId, resolveTarget_specModel, outcomeOfResolve, h1, h2, h3, hn,
            e1, e2, e3]
        | some ch =>
          by_cases him : (ch.is_im || ch.is_mpim) = true
          · simp [resolveChannelId, resolveTarget_specModel, outcomeOfResolve, h1, h2, h3, hn,
              him]
          · simp [resolveChannelId, resolveTarget_specModel, outcomeOfResolve, h1, h2, h3, hn,
              him]
      · cases hn : mapGet st.channelsById input with
        | none =>
          simp [resolveChannelId, resolveTarget_specModel, outcomeOfResolve, h1, h2, h3, hn]
        | some ch =>
          by_cases him : (ch.is_im || ch.is_mpim) = true
          · simp [resolveChannelId, resolveTarget_specModel, outcomeOfResolve, h1, h2, h3, hn,
              him]
          · simp [resolveChannelId, resolveTarget_specModel, outcomeOfResolve, h1, h2, h3, hn,
              him]

/-- C6 (counterexample): the claim says the rejection message is a fixed
constant determined solely by the category (direct message vs. group direct
message).  It is not: the inputs `@alice` and `D123` are both rejected as
direct messages, yet with two different messages; and a cache-flagged direct
message (`X111`, `is_im`) and a cache-flagged group direct message (`G999`,
`is_mpim`) are rejected with one and the same third message, so the message
neither is a function of the category nor distinguishes the two categories. -/
theorem security_message_not_by_category :
    resolveChannelId emptyCache "@alice" = .error dmAtMsg ∧
    resolveChannelId emptyCache "D123" = .error dmDMsg ∧
    dmAtMsg ≠ dmDMsg ∧
    resolveChannelId flaggedCache "X111" = .error dmFlagMsg ∧
    resolveChannelId flaggedCache "G999" = .error dmFlagMsg := by
  refine ⟨by decide, by decide, by decide, by decide, by decide⟩

/-- C6 (amended): the rejection message for a security rejection is drawn
from three fixed constants and is determined solely by the input's own
syntax — `@` inputs, `D`-prefixed inputs, and all cache-flag-based
rejections (direct message and group direct message alike) each map to one
fixed constant.  It never varies with, or reveals, the particular cached
record that matched: the right-hand side does not depend on the cache at
all. -/
theorem security_message_fixed (st : CacheState) (input m : String)
    (h : resolveChannelId st input = .error m)
    (hsec : m = dmAtMsg ∨ m = dmDMsg ∨ m = dmFlagMsg) :
    m = (if startsWithChar input '@' then dmAtMsg
         else if startsWithChar input 'D' then dmDMsg
         else dmFlagMsg) := by
  by_cases h1 : startsWithChar input '@' = true
  · simp only [resolveChannelId, h1, if_true, Except.error.injEq] at h
    subst h
    simp [h1]
  · by_cases h2 : startsWithChar input 'D' = true
    · simp only [resolveChannelId, h1, h2, Bool.false_eq_true, if_false, if_true,
        Except.error.injEq] at h
      subst h
      simp [h1, h2]
    · by_cases h3 : startsWithChar input '#' = true
      · cases hn : mapGet st.channelsByName input with
        | none =>
          simp only [resolveChannelId, h1, h2, h3, Bool.false_eq_true, if_false, if_true, hn,
            Except.error.injEq] at h
          subst h
          rcases hsec with he | he | he
          · exact absurd he (notFoundMsg_ne input dmAtMsg dm_msgs_head.1)
          · exact absurd he (notFoundMsg_ne input dmDMsg dm_msgs_head.2.1)
          · exact absurd he (notFoundMsg_ne input dmFlagMsg dm_msgs_head.2.2)
        | some ch =>
          by_cases him : (ch.is_im || ch.is_mpim) = true
          · simp only [resolveChannelId, h1, h2, h3, Bool.false_eq_true, if_false, if_true, hn,
              him, Except.error.injEq] at h
            subst h
            simp [h1, h2]
          · simp only [resolveChannelId, h1, h2, h3, Bool.false_eq_true, if_false, if_true, hn,
              him] at h
            exact Except.noConfusion h
      · cases hn : mapGet st.channelsById input with
        | none =>
          simp only [resolveChannelId, h1, h2, h3, Bool.false_eq_true, if_false, hn] at h
          exact Except.noConfusion h
        | some ch =>
          by_cases him : (ch.is_im || ch.is_mpim) = true
          · simp only [resolveChannelId, h1, h2, h3, Bool.false_eq_true, if_false, if_true, hn,
              him, Except.error.injEq] at h
            subst h
            simp [h1, h2]
          · simp only [resolveChannelId, h1, h2, h3, Bool.false_eq_true, if_false, if_true, hn,
              him] at h
            exact Except.noConfusion h

/-- C8: `resolveChannelId` is idempotent on valid targets — a raw channel id
cached as a non-DM, non-group-DM channel (and not starting with `@`, `D`,
or `#`) resolves to itself, so resolving the result again gives the same
answer. -/
theorem resolveChannelId_idempotent (st : CacheState) (x : String) (ch : Channel)
    (h1 : startsWithChar x '@' = false) (h2 : startsWithChar x 'D' = false)
    (h3 : startsWithChar x '#' = false) (hget : mapGet st.channelsById x = some ch)
    (him : ch.is_im = false) (hmp : ch.is_mpim = false) :
    resolveChannelId st x = .ok x ∧
    (resolveChannelId st x).bind (resolveChannelId st) = resolveChannelId st x := by
  have hres : resolveChannelId st x = .ok x := by
    simp [resolveChannelId, h1, h2, h3, hget, him, hmp]
  refine ⟨hres, ?_⟩
  rw [hres, exceptBind_ok, hres]

/-- Witness for C8 at the cached public channel `C100` of `sampleCache`. -/
theorem resolveChannelId_idempotent_witness :
    resolveChannelId sampleCache "C100" = .ok "C100" ∧
    (resolveChannelId sampleCache "C100").bind (resolveChannelId sampleCache)
      = resolveChannelId sampleCache "C100" :=
  resolveChannelId_idempotent sampleCache "C100"
    { id := "C100", name := "#general", is_private := false, is_im := false, is_mpim := false,
      topic := some "hello", purpose := none, num_members := some 7 }
    (by decide) (by decide) (by decide) (by decide) rfl rfl

/-- Witness for C6 (amended): the flag-based rejection of the group DM
`G999` carries exactly the constant selected by the input's syntax. -/
theorem security_message_fixed_witness :
    resolveChannelId sampleCache "G999" = .error dmFlagMsg ∧
    dmFlagMsg = (if startsWithChar "G999" '@' then dmAtMsg
                 else if startsWithChar "G999" 'D' then dmDMsg else dmFlagMsg) :=
  ⟨by decide,
   security_message_fixed sampleCache "G999" dmFlagMsg (by decide) (Or.inr (Or.inr rfl))⟩

/-- One-step equation for `escapeQuotesL`. -/
theorem escapeQuotesL_cons (c : Char) (rest : List Char) :
    escapeQuotesL (c :: rest) =
      if c = '\x22' then '\x22' :: '\x22' :: escapeQuotesL rest
      else c :: escapeQuotesL rest := rfl

/-- One-step equation for `unescapeQuoted`. -/
theorem unescapeQuoted_cons (c : Char) (rest : List Char) :
    unescapeQuoted (c :: rest) =
      if c = '\x22' then
        (match rest with
         | [] => some []
         | c2 :: rest2 =>
           if c2 = '\x22' then (unescapeQuoted rest2).map (fun l => '\x22' :: l)
           else none)
      else (unescapeQuoted rest).map (fun l => c :: l) := by
  cases rest <;> rfl

/-- Undoubling is a left inverse of doubling, given the closing quote. -/
theorem escapeQuotesL_roundtrip (l : List Char) :
    unescapeQuoted (escapeQuotesL l ++ ['\x22']) = some l := by
  induction l with
  | nil => rfl
  | cons c rest ih =>
    by_cases hc : c = '\x22'
    · subst hc
      show (unescapeQuoted (escapeQuotesL rest ++ ['\x22'])).map (fun l => '\x22' :: l)
        = some ('\x22' :: rest)
      rw [ih]
      rfl
    · rw [escapeQuotesL_cons, if_neg hc, List.cons_append, unescapeQuoted_cons, if_neg hc, ih]
      rfl

/-- C7: rendering a string as a free-text field (the quoted, quote-doubled
form used for topic, purpose and message text in `renderChannelRow` and
`renderHistoryRow`) and parsing the rendered field back with standard
quote-doubling rules reproduces the original string exactly; ids, counts
and timestamps are interpolated into the rows unquoted. -/
theorem csv_field_roundtrip (s : String) : parseQuotedField (quoteField s) = some s := by
  have hd : (quoteField s).data = '\x22' :: (escapeQuotesL s.data ++ ['\x22']) := by
    show (("\x22" : String) ++ replaceQuotes s ++ "\x22").data
      = '\x22' :: (escapeQuotesL s.data ++ ['\x22'])
    rw [String.data_append, String.data_append]
    rfl
  unfold parseQuotedField
  rw [hd]
  show Option.map (fun l => ({ data := l } : String)) (unescapeQuoted (escapeQuotesL s.data ++ ['\x22']))
    = some s
  rw [escapeQuotesL_roundtrip]
  rfl

/-- Every channel `collectChannels` accumulates beyond a flag-free
accumulator is itself flag-free: the `is_im || is_mpim` skip runs before
the type filter and before the limit check. -/
theorem collectChannels_all (types : String) (limit : Nat) (l : List (String × Channel))
    (acc : List Channel) (hacc : acc.all (fun c => !c.is_im && !c.is_mpim) = true) :
    (collectChannels types limit l acc).all (fun c => !c.is_im && !c.is_mpim) = true := by
  induction l generalizing acc with
  | nil => simpa [collectChannels] using hacc
  | cons p rest ih =>
    obtain ⟨k, channel⟩ := p
    by_cases him : (channel.is_im || channel.is_mpim) = true
    · rw [show collectChannels types limit ((k, channel) :: rest) acc
          = collectChannels types limit rest acc from by
        simp [collectChannels, him]]
      exact ih acc hacc
    · have hflag : channel.is_im = false ∧ channel.is_mpim = false := by
        revert him
        cases channel.is_im <;> cases channel.is_mpim <;> simp
      have hch : (!channel.is_im && !channel.is_mpim) = true := by
        rw [hflag.1, hflag.2]
        rfl
      have happ : (acc ++ [channel]).all (fun c => !c.is_im && !c.is_mpim) = true := by
        rw [List.all_append, hacc, Bool.true_and]
        simpa using hch
      simp only [collectChannels, him, Bool.false_eq_true, if_false]
      split
      · split
        · exact happ
        · exact ih _ happ
      · split
        · split
          · exact happ
          · exact ih _ happ
        · split
          · exact hacc
          · exact ih _ hacc

/-- C3: for every cache state, every requested type-filter string and every
limit, the channel-listing operation returns no channel whose `is_im` or
`is_mpim` flag is true, and neither does the channels resource rendering. -/
theorem channels_list_never_includes_dm (st : CacheState) (typesArg : Option String)
    (limitArg : Option Nat) :
    ((channelsListChannels st typesArg limitArg).all (fun c => !c.is_im && !c.is_mpim) = true) ∧
    ((resourceChannels st).all (fun c => !c.is_im && !c.is_mpim) = true) := by
  constructor
  · exact collectChannels_all _ _ _ [] rfl
  · rw [List.all_eq_true]
    intro c hc
    exact (List.mem_filter.mp hc).2

/-- An identifier classified as a (group) direct message always makes
`resolveChannelId` throw one of the three security-rejection messages. -/
theorem resolve_error_of_blocked (st : CacheState) (input : String)
    (h : classifiedAsBlocked st input = true) :
    ∃ m, resolveChannelId st input = .error m ∧
      (m = dmAtMsg ∨ m = dmDMsg ∨ m = dmFlagMsg) := by
  by_cases h1 : startsWithChar input '@' = true
  · exact ⟨dmAtMsg, by simp [resolveChannelId, h1], Or.inl rfl⟩
  · by_cases h2 : startsWithChar input 'D' = true
    · exact ⟨dmDMsg, by simp [resolveChannelId, h1, h2], Or.inr (Or.inl rfl)⟩
    · have h1f : startsWithChar input '@' = false := by
        revert h1
        cases startsWithChar input '@' <;> simp
      have h2f : startsWithChar input 'D' = false := by
        revert h2
        cases startsWithChar input 'D' <;> simp
      by_cases h3 : startsWithChar input '#' = true
      · cases hn : mapGet st.channelsByName input with
        | none =>
          rw [classifiedAsBlocked, h1f, h2f, h3] at h
          simp [hn] at h
        | some ch =>
          have him : (ch.is_im || ch.is_mpim) = true := by
            rw [classifiedAsBlocked, h1f, h2f, h3] at h
            simpa [hn] using h
          exact ⟨dmFlagMsg, by simp [resolveChannelId, h1, h2, h3, hn, him],
            Or.inr (Or.inr rfl)⟩
      · have h3f : startsWithChar input '#' = false := by
          revert h3
          cases startsWithChar input '#' <;> simp
        cases hn : mapGet st.channelsById input with
        | none =>
          rw [classifiedAsBlocked, h1f, h2f, h3f] at h
          simp [hn] at h
        | some ch =>
          have him : (ch.is_im || ch.is_mpim) = true := by
            rw [classifiedAsBlocked, h1f, h2f, h3f] at h
            simpa [hn] using h
          exact ⟨dmFlagMsg, by simp [resolveChannelId, h1, h2, h3, hn, him],
            Or.inr (Or.inr rfl)⟩

/-- C1 (amended): for the four target-resolving operations — history,
replies, search with a channel filter, and posting — every identifier
classified as a direct message or group direct message (by the `@`/`D`
syntactic prefix, or by the `is_im`/`is_mpim` flag of the cached channel it
addresses) is rejected and no upstream call is performed for it, under every
cache state and configuration; for search this covers every non-empty
filter, because an empty-string channel filter is falsy in the source's
`if (args.channel)` guard and is treated exactly as an absent filter — the
unscoped search proceeds with no channel resolution and no `in:` clause, so
no upstream call targets the (possibly blocked) empty-string cache entry.
The channel-listing operation omits every channel whose cached flags are
set, for every requested type filter and limit; it filters by the cached
flags only, not by the syntactic prefix checks (see the counterexample). -/
theorem blocked_targets_rejected (st : CacheState) (input : String)
    (h : classifiedAsBlocked st input = true) :
    (∀ l cur, isOkE (handleConversationsHistoryCall st input l cur) = false) ∧
    (∀ ts l cur, isOkE (handleConversationsRepliesCall st input ts l cur) = false) ∧
    (∀ q fu l, input ≠ "" → isOkE (handleConversationsSearchCall st q (some input) fu l) = false) ∧
    (∀ q fu l, handleConversationsSearchCall st q (some "") fu l
        = handleConversationsSearchCall st q none fu l) ∧
    (∀ env txt th, isOkE (handleAddMessage env st input txt th) = false) ∧
    (∀ t lim, (channelsListChannels st t lim).all (fun c => !c.is_im && !c.is_mpim) = true) := by
  obtain ⟨m, hm, -⟩ := resolve_error_of_blocked st input h
  refine ⟨?_, ?_, ?_, ?_, ?_, ?_⟩
  · intro l cur
    rw [handleConversationsHistoryCall, hm, exceptMap_error, isOkE_error]
  · intro ts l cur
    rw [handleConversationsRepliesCall, hm, exceptMap_error, isOkE_error]
  · intro q fu l hne
    rw [handleConversationsSearchCall]
    rw [if_neg hne, hm, exceptMap_error, isOkE_error]
  · intro q fu l
    rfl
  · intro env txt th
    rw [handleAddMessage]
    by_cases he : (!ADD_MESSAGE_ENABLED env && (ALLOWED_CHANNELS env).isNone) = true
    · rw [if_pos he, isOkE_error]
    · rw [if_neg he, hm, exceptBind_error, isOkE_error]
  · intro t lim
    exact collectChannels_all _ _ _ [] rfl

/-- Witness for C1 (amended) at the cached group DM `G999` of `sampleCache`,
which is classified as blocked only through its cached `is_mpim` flag; the
empty-string filter conjunct is instantiated on the same cache. -/
theorem blocked_targets_rejected_witness :
    classifiedAsBlocked sampleCache "G999" = true ∧
    isOkE (handleConversationsHistoryCall sampleCache "G999" none none) = false ∧
    isOkE (handleConversationsRepliesCall sampleCache "G999" "1700000000.0" none none) = false ∧
    isOkE (handleConversationsSearchCall sampleCache "deploy" (some "G999") none none) = false ∧
    handleConversationsSearchCall sampleCache "deploy" (some "") none none
      = handleConversationsSearchCall sampleCache "deploy" none none none ∧
    isOkE (handleAddMessage (some "true") sampleCache "G999" "hi" none) = false ∧
    ((channelsListChannels sampleCache none none).all (fun c => !c.is_im && !c.is_mpim)
      = true) := by
  have h := blocked_targets_rejected sampleCache "G999" (by decide)
  exact ⟨by decide, h.1 none none, h.2.1 "1700000000.0" none none,
    h.2.2.1 "deploy" none none (by decide), h.2.2.2.1 "deploy" none none,
    h.2.2.2.2.1 (some "true") "hi" none, h.2.2.2.2.2 none none⟩

/-- Counterexample for C1 as stated: a cache built by `loadCache` from a
listing page carrying a record with id `D123` and both conversation flags
false.  `D123` is classified as a direct message by the syntactic `D`-prefix
rule (`isBlockedChannel` and the claim's classification both say so), yet
`channels_list` returns success content containing that channel's row,
because the listing filters by the cached flags only. -/
theorem channels_list_lists_syntactic_dm :
    isBlockedChannel
        (loadCache [[{ id := "D123", name := "weird", is_private := some false,
                       is_im := some false, is_mpim := some false, topic := none,
                       purpose := none, num_members := none }]] [])
        "D123" none = true ∧
    classifiedAsBlocked
        (loadCache [[{ id := "D123", name := "weird", is_private := some false,
                       is_im := some false, is_mpim := some false, topic := none,
                       purpose := none, num_members := none }]] [])
        "D123" = true ∧
    handleChannelsList
        (loadCache [[{ id := "D123", name := "weird", is_private := some false,
                       is_im := some false, is_mpim := some false, topic := none,
                       purpose := none, num_members := none }]] [])
        none none
      = "id,name,topic,purpose,members\nD123,#weird,\x22\x22,\x22\x22,0" := by
  refine ⟨by decide, by decide, by decide⟩

/-- C5: posting enablement is applied strictly.  With neither the boolean
flag nor an allow-list configured, every target is rejected with the
posting-disabled error — including targets that would resolve successfully.
With an allow-list configured, a resolved target is accepted exactly when
its id is on the list (and the accepted upstream post targets that id);
the right-hand side does not consult the boolean flag at all. -/
theorem posting_enablement :
    (∀ env st ch txt th, ADD_MESSAGE_ENABLED env = false → ALLOWED_CHANNELS env = none →
      handleAddMessage env st ch txt th = .error postingDisabledMsg) ∧
    (∀ env allowed st ch cid txt th, ALLOWED_CHANNELS env = some allowed →
      resolveChannelId st ch = .ok cid →
      handleAddMessage env st ch txt th =
        (if allowed.contains cid then .ok { channel := cid, text := txt, thread_ts := th }
         else .error (notAllowedMsg cid))) := by
  constructor
  · intro env st ch txt th he ha
    rw [handleAddMessage, he, ha]
    rfl
  · intro env allowed st ch cid txt th ha hres
    rw [handleAddMessage, ha]
    have hcond : (!ADD_MESSAGE_ENABLED env && (Option.some allowed).isNone) = false := by
      cases ADD_MESSAGE_ENABLED env <;> rfl
    rw [hcond]
    simp only [Bool.false_eq_true, if_false, hres, exceptBind_ok, ha]

/-- Witness for C5: the spec's example — allow-list `{C100}` (environment
value `C100`) accepts target `C100`, rejects target `C200`, and an
unconfigured environment value rejects the resolvable target `C100` with
the posting-disabled error. -/
theorem posting_enablement_witness :
    handleAddMessage (some "C100") sampleCache "C100" "hi" none
      = .ok { channel := "C100", text := "hi", thread_ts := none } ∧
    handleAddMessage (some "C100") sampleCache "C200" "hi" none
      = .error (notAllowedMsg "C200") ∧
    handleAddMessage none sampleCache "C100" "hi" none = .error postingDisabledMsg := by
  refine ⟨?_, ?_, ?_⟩
  · exact (posting_enablement.2 (some "C100") ["C100"] sampleCache "C100" "C100" "hi" none
      (by decide) (by decide)).trans (by decide)
  · exact (posting_enablement.2 (some "C100") ["C100"] sampleCache "C200" "C200" "hi" none
      (by decide) (by decide)).trans (by decide)
  · exact posting_enablement.1 none sampleCache "C100" "hi" none rfl rfl

/-- C10: with posting not enabled (no boolean flag, no allow-list), the
posting operation fails with the single posting-disabled error before any
target resolution: the result is the same fixed error for every cache state
and every target — valid channel, unknown id, or blocked DM address — and
it is never one of the security-rejection errors, so no security
classification is observable and no upstream call is performed (an error
result carries no upstream request). -/
theorem posting_disabled_uniform (env : Option String)
    (he : ADD_MESSAGE_ENABLED env = false) (ha : ALLOWED_CHANNELS env = none) :
    ∀ st st' ch ch' txt txt' th th',
      handleAddMessage env st ch txt th = .error postingDisabledMsg ∧
      handleAddMessage env st ch txt th = handleAddMessage env st' ch' txt' th' ∧
      handleAddMessage env st ch txt th ≠ .error dmAtMsg ∧
      handleAddMessage env st ch txt th ≠ .error dmDMsg ∧
      handleAddMessage env st ch txt th ≠ .error dmFlagMsg := by
  intro st st' ch ch' txt txt' th th'
  have hall : ∀ (s : CacheState) (c t : String) (tt : Option String),
      handleAddMessage env s c t tt = .error postingDisabledMsg := by
    intro s c t tt
    rw [handleAddMessage, he, ha]
    rfl
  refine ⟨hall st ch txt th, (hall st ch txt th).trans (hall st' ch' txt' th').symm, ?_, ?_, ?_⟩
  · rw [hall st ch txt th]
    intro hcontra
    exact absurd (Except.error.inj hcontra) (by decide)
  · rw [hall st ch txt th]
    intro hcontra
    exact absurd (Except.error.inj hcontra) (by decide)
  · rw [hall st ch txt th]
    intro hcontra
    exact absurd (Except.error.inj hcontra) (by decide)

/-- Witness for C10: with no configuration, the blocked DM address `@alice`
and the valid channel `C100` both produce the same posting-disabled error,
which differs from every security rejection. -/
theorem posting_disabled_uniform_witness :
    handleAddMessage none sampleCache "@alice" "hi" none = .error postingDisabledMsg ∧
    handleAddMessage none sampleCache "@alice" "hi" none
      = handleAddMessage none emptyCache "C100" "yo" (some "1.0") ∧
    handleAddMessage none sampleCache "@alice" "hi" none ≠ .error dmAtMsg ∧
    handleAddMessage none sampleCache "@alice" "hi" none ≠ .error dmDMsg ∧
    handleAddMessage none sampleCache "@alice" "hi" none ≠ .error dmFlagMsg :=
  posting_disabled_uniform none rfl rfl sampleCache emptyCache "@alice" "C100" "hi" "yo"
    none (some "1.0")

/-- C9: the author substitution of the history and replies operations falls
back from `real_name` to the handle to the raw id: an author id absent from
the user cache (or empty) is rendered as the raw id itself in the user
column, a cached author renders as `real_name` when non-empty, else as the
handle when non-empty, else as the raw id; and a non-empty author id never
renders as an empty author. -/
theorem author_name_fallback (st : CacheState) (m : RawMessage) :
    (mapGet st.usersById (jsOrS m.user "") = none →
      (historyRowOfMessage st m).user = jsOrS m.user "" ∧
      (replyRowOfMessage st m).user = jsOrS m.user "") ∧
    (∀ u, mapGet st.usersById (jsOrS m.user "") = some u → u.real_name ≠ "" →
      (historyRowOfMessage st m).user = u.real_name ∧
      (replyRowOfMessage st m).user = u.real_name) ∧
    (∀ u, mapGet st.usersById (jsOrS m.user "") = some u → u.real_name = "" → u.name ≠ "" →
      (historyRowOfMessage st m).user = u.name ∧
      (replyRowOfMessage st m).user = u.name) ∧
    (∀ u, mapGet st.usersById (jsOrS m.user "") = some u → u.real_name = "" → u.name = "" →
      (historyRowOfMessage st m).user = jsOrS m.user "" ∧
      (replyRowOfMessage st m).user = jsOrS m.user "") ∧
    (jsOrS m.user "" ≠ "" →
      (historyRowOfMessage st m).user ≠ "" ∧ (replyRowOfMessage st m).user ≠ "") := by
  have hrow : (historyRowOfMessage st m).user = getUserName st (jsOrS m.user "") := rfl
  have hrow2 : (replyRowOfMessage st m).user = getUserName st (jsOrS m.user "") := rfl
  refine ⟨?_, ?_, ?_, ?_, ?_⟩
  · intro hn
    rw [hrow, hrow2, getUserName, hn]
    exact ⟨rfl, rfl⟩
  · intro u hu hr
    rw [hrow, hrow2, getUserName, hu]
    exact ⟨if_pos hr, if_pos hr⟩
  · intro u hu hr hname
    rw [hrow, hrow2, getUserName, hu]
    exact ⟨(if_neg (fun hcon => hcon hr)).trans (if_pos hname),
           (if_neg (fun hcon => hcon hr)).trans (if_pos hname)⟩
  · intro u hu hr hname
    rw [hrow, hrow2, getUserName, hu]
    exact ⟨(if_neg (fun hcon => hcon hr)).trans (if_neg (fun hcon => hcon hname)),
           (if_neg (fun hcon => hcon hr)).trans (if_neg (fun hcon => hcon hname))⟩
  · intro hne
    rw [hrow, hrow2, getUserName]
    cases hu : mapGet st.usersById (jsOrS m.user "") with
    | none => exact ⟨hne, hne⟩
    | some u =>
      by_cases hr : u.real_name = ""
      · by_cases hname : u.name = ""
        · have hv : (if u.real_name ≠ "" then u.real_name
              else if u.name ≠ "" then u.name else jsOrS m.user "") = jsOrS m.user "" :=
            (if_neg (fun hcon => hcon hr)).trans (if_neg (fun hcon => hcon hname))
          exact ⟨fun hcon => hne (hv.symm.trans hcon), fun hcon => hne (hv.symm.trans hcon)⟩
        · have hv : (if u.real_name ≠ "" then u.real_name
              else if u.name ≠ "" then u.name else jsOrS m.user "") = u.name :=
            (if_neg (fun hcon => hcon hr)).trans (if_pos hname)
          exact ⟨fun hcon => hname (hv.symm.trans hcon),
                 fun hcon => hname (hv.symm.trans hcon)⟩
      · have hv : (if u.real_name ≠ "" then u.real_name
            else if u.name ≠ "" then u.name else jsOrS m.user "") = u.real_name :=
          if_pos hr
        exact ⟨fun hcon => hr (hv.symm.trans hcon), fun hcon => hr (hv.symm.trans hcon)⟩

/-- Witness for C9 on `sampleCache`: the unknown author `U404` renders as
itself; `U1` renders as the cached `real_name`; `U2` (no wire `real_name`)
renders as the handle `bob` through the cache-build fallback; and the
non-empty id `U404` does not render empty. -/
theorem author_name_fallback_witness :
    (historyRowOfMessage sampleCache
      { ts := "1.0", user := some "U404", text := some "x", thread_ts := none,
        reactions := none }).user = "U404" ∧
    (historyRowOfMessage sampleCache
      { ts := "1.0", user := some "U1", text := some "x", thread_ts := none,
        reactions := none }).user = "Alice A" ∧
    (historyRowOfMessage sampleCache
      { ts := "1.0", user := some "U2", text := some "x", thread_ts := none,
        reactions := none }).user = "bob" ∧
    (historyRowOfMessage sampleCache
      { ts := "1.0", user := some "U404", text := some "x", thread_ts := none,
        reactions := none }).user ≠ "" := by
  refine ⟨?_, ?_, ?_, ?_⟩
  · exact ((author_name_fallback sampleCache
      { ts := "1.0", user := some "U404", text := some "x", thread_ts := none,
        reactions := none }).1 (by decide)).1
  · exact ((author_name_fallback sampleCache
      { ts := "1.0", user := some "U1", text := some "x", thread_ts := none,
        reactions := none }).2.1 { id := "U1", name := "alice", real_name := "Alice A" }
      (by decide) (by decide)).1
  · exact ((author_name_fallback sampleCache
      { ts := "1.0", user := some "U2", text := some "x", thread_ts := none,
        reactions := none }).2.1 { id := "U2", name := "bob", real_name := "bob" }
      (by decide) (by decide)).1
  · exact ((author_name_fallback sampleCache
      { ts := "1.0", user := some "U404", text := some "x", thread_ts := none,
        reactions := none }).2.2.2.2 (by decide)).1

/-! ## Cache-build lemmas (for C4) -/

/-- `mapSet` with a key absent from the table appends a fresh entry. -/
theorem mapSet_fresh {α : Type} (m : List (String × α)) (k : String) (v : α)
    (h : k ∉ m.map Prod.fst) : mapSet m k v = m ++ [(k, v)] := by
  rw [mapSet, if_neg]
  intro hany
  rw [List.any_eq_true] at hany
  obtain ⟨p, hp, hpk⟩ := hany
  rw [beq_iff_eq] at hpk
  exact h (hpk ▸ List.mem_map_of_mem Prod.fst hp)

/-- Folding `mapSet` insertions of records with pairwise-distinct keys,
all fresh for the initial table, appends the association list of the
records. -/
theorem foldl_mapSet_fresh {α : Type} (key : α → String) (l : List α) :
    ∀ m : List (String × α),
      (∀ x ∈ l, key x ∉ m.map Prod.fst) →
      l.Pairwise (fun a b => key a ≠ key b) →
      l.foldl (fun acc x => mapSet acc (key x) x) m = m ++ l.map (fun x => (key x, x)) := by
  induction l with
  | nil =>
    intro m _ _
    simp
  | cons x rest ih =>
    intro m hfresh hpw
    have hfresh2 : ∀ y ∈ rest, key y ∉ (m ++ [(key x, x)]).map Prod.fst := by
      intro y hy hmem
      rw [List.map_append] at hmem
      rcases List.mem_append.mp hmem with hm1 | hm2
      · exact hfresh y (List.mem_cons_of_mem x hy) hm1
      · have hxy : key y = key x := by simpa using hm2
        exact ((List.pairwise_cons.mp hpw).1 y hy) hxy.symm
    rw [List.foldl_cons, mapSet_fresh m (key x) x (hfresh x (List.mem_cons_self x rest)),
      ih (m ++ [(key x, x)]) hfresh2 (List.pairwise_cons.mp hpw).2]
    simp

/-- In the association list of records with pairwise-distinct keys, every
record is found under its key. -/
theorem mapGet_map_of_mem {α : Type} (key : α → String) (l : List α) (x : α)
    (hpw : l.Pairwise (fun a b => key a ≠ key b)) (hx : x ∈ l) :
    mapGet (l.map (fun y => (key y, y))) (key x) = some x := by
  induction l with
  | nil => cases hx
  | cons y rest ih =>
    rw [List.map_cons]
    rcases List.mem_cons.mp hx with rfl | hmem
    · exact if_pos rfl
    · have hne : key y ≠ key x := (List.pairwise_cons.mp hpw).1 x hmem
      exact (if_neg hne).trans (ih (List.pairwise_cons.mp hpw).2 hmem)

/-- Whatever the association list of records yields was one of the records,
under its own key. -/
theorem mapGet_map_eq_some {α : Type} (key : α → String) (l : List α) (k : String) (x : α)
    (h : mapGet (l.map (fun y => (key y, y))) k = some x) : x ∈ l ∧ key x = k := by
  induction l with
  | nil => exact absurd h (by rw [List.map_nil, mapGet]; exact Option.noConfusion)
  | cons y rest ih =>
    rw [List.map_cons] at h
    by_cases hk : key y = k
    · have hyx : y = x := Option.some.inj ((if_pos hk).symm.trans h)
      subst hyx
      exact ⟨List.mem_cons_self y rest, hk⟩
    · obtain ⟨hm, hkk⟩ := ih ((if_neg hk).symm.trans h)
      exact ⟨List.mem_cons_of_mem y hm, hkk⟩

/-- The channel-population fold acts on the two channel tables entrywise and
leaves the user tables untouched. -/
theorem chanfold_tables (l : List RawChannel) : ∀ st : CacheState,
    (l.foldl addChannelRecord st).channelsById
        = l.foldl (fun acc ch => mapSet acc (channelOfRaw ch).id (channelOfRaw ch))
            st.channelsById ∧
    (l.foldl addChannelRecord st).channelsByName
        = l.foldl (fun acc ch => mapSet acc (channelOfRaw ch).name (channelOfRaw ch))
            st.channelsByName ∧
    (l.foldl addChannelRecord st).usersById = st.usersById ∧
    (l.foldl addChannelRecord st).usersByName = st.usersByName := by
  induction l with
  | nil =>
    intro st
    exact ⟨rfl, rfl, rfl, rfl⟩
  | cons ch rest ih =>
    intro st
    simp only [List.foldl_cons]
    exact ih (addChannelRecord st ch)

/-- The user-population fold acts on the two user tables entrywise (with the
deleted/bot skip) and leaves the channel tables untouched. -/
theorem userfold_tables (l : List RawUser) : ∀ st : CacheState,
    (l.foldl addUserRecord st).usersById
        = l.foldl (fun acc u => if u.deleted || u.is_bot then acc
            else mapSet acc (userOfRaw u).id (userOfRaw u)) st.usersById ∧
    (l.foldl addUserRecord st).usersByName
        = l.foldl (fun acc u => if u.deleted || u.is_bot then acc
            else mapSet acc ("@" ++ (userOfRaw u).name) (userOfRaw u)) st.usersByName ∧
    (l.foldl addUserRecord st).channelsById = st.channelsById ∧
    (l.foldl addUserRecord st).channelsByName = st.channelsByName := by
  induction l with
  | nil =>
    intro st
    exact ⟨rfl, rfl, rfl, rfl⟩
  | cons u rest ih =>
    intro st
    simp only [List.foldl_cons]
    by_cases hu : (u.deleted || u.is_bot) = true
    · have hst : addUserRecord st u = st := by rw [addUserRecord, if_pos hu]
      rw [hst, if_pos hu, if_pos hu]
      exact ih st
    · have hst : addUserRecord st u =
          { st with usersById := mapSet st.usersById (userOfRaw u).id (userOfRaw u),
                    usersByName := mapSet st.usersByName ("@" ++ (userOfRaw u).name)
                      (userOfRaw u) } := by
        rw [addUserRecord, if_neg hu]
      rw [hst, if_neg hu, if_neg hu]
      exact ih _

/-- Skipping records in a fold is folding over the filtered list. -/
theorem foldl_if_skip {α β : Type} (q : α → Bool) (f : β → α → β) (l : List α) :
    ∀ b : β,
      l.foldl (fun acc x => if q x then acc else f acc x) b
        = (l.filter (fun x => !q x)).foldl f b := by
  induction l with
  | nil =>
    intro b
    rfl
  | cons x rest ih =>
    intro b
    by_cases hx : q x = true
    · simp [List.foldl_cons, List.filter_cons, hx, ih]
    · simp [List.foldl_cons, List.filter_cons, hx, ih]

/-- The four tables a cache build produces, as folds over the processed
record sequences. -/
theorem loadCache_tables (chanPages : List (List RawChannel))
    (userPages : List (List RawUser)) :
    (loadCache chanPages userPages).channelsById
        = (cacheChannels chanPages).foldl (fun acc c => mapSet acc c.id c) [] ∧
    (loadCache chanPages userPages).channelsByName
        = (cacheChannels chanPages).foldl (fun acc c => mapSet acc c.name c) [] ∧
    (loadCache chanPages userPages).usersById
        = (cacheUsers userPages).foldl (fun acc u => mapSet acc u.id u) [] ∧
    (loadCache chanPages userPages).usersByName
        = (cacheUsers userPages).foldl (fun acc u => mapSet acc ("@" ++ u.name) u) [] := by
  have hload : loadCache chanPages userPages
      = (userPages.flatten).foldl addUserRecord
          ((chanPages.flatten).foldl addChannelRecord emptyCache) := by
    rw [loadCache, ← List.foldl_flatten, ← List.foldl_flatten]
  obtain ⟨hu1, hu2, hu3, hu4⟩ :=
    userfold_tables (userPages.flatten) ((chanPages.flatten).foldl addChannelRecord emptyCache)
  obtain ⟨hc1, hc2, hc3, hc4⟩ := chanfold_tables (chanPages.flatten) emptyCache
  refine ⟨?_, ?_, ?_, ?_⟩
  · rw [hload, hu3, hc1, cacheChannels, List.foldl_map]
    rfl
  · rw [hload, hu4, hc2, cacheChannels, List.foldl_map]
    rfl
  · rw [hload, hu1, hc3, cacheUsers, List.foldl_map, foldl_if_skip]
    rfl
  · rw [hload, hu2, hc4, cacheUsers, List.foldl_map, foldl_if_skip]
    rfl

/-- `String.append` is left-cancellative. -/
theorem string_append_left_cancel (p : String) {a b : String} (h : p ++ a = p ++ b) :
    a = b := by
  have hd := congrArg String.data h
  rw [String.data_append, String.data_append] at hd
  exact String.ext (List.append_cancel_left hd)

/-- C4 (amended): after a cache build whose processed channel records have
pairwise-distinct ids and pairwise-distinct names — and whose processed
(non-deleted, non-bot) user records have pairwise-distinct ids and
handles — the by-id and by-name tables are mutually consistent: every entry
reachable through the by-id table is reachable through the by-name table
under its name, and vice versa, for channels and for users alike, for every
sequence of pages.  (Without name distinctness this fails: see the
counterexample, where the second of two same-named records overwrites the
first record's by-name entry while both by-id entries remain.) -/
theorem cache_tables_mutually_consistent (chanPages : List (List RawChannel))
    (userPages : List (List RawUser))
    (hcid : (cacheChannels chanPages).Pairwise (fun a b => a.id ≠ b.id))
    (hcname : (cacheChannels chanPages).Pairwise (fun a b => a.name ≠ b.name))
    (huid : (cacheUsers userPages).Pairwise (fun a b => a.id ≠ b.id))
    (huname : (cacheUsers userPages).Pairwise (fun a b => a.name ≠ b.name)) :
    (∀ k c, mapGet (loadCache chanPages userPages).channelsById k = some c →
        k = c.id ∧ mapGet (loadCache chanPages userPages).channelsByName c.name = some c) ∧
    (∀ k c, mapGet (loadCache chanPages userPages).channelsByName k = some c →
        k = c.name ∧ mapGet (loadCache chanPages userPages).channelsById c.id = some c) ∧
    (∀ k u, mapGet (loadCache chanPages userPages).usersById k = some u →
        k = u.id ∧
          mapGet (loadCache chanPages userPages).usersByName ("@" ++ u.name) = some u) ∧
    (∀ k u, mapGet (loadCache chanPages userPages).usersByName k = some u →
        k = "@" ++ u.name ∧
          mapGet (loadCache chanPages userPages).usersById u.id = some u) := by
  have hatname : (cacheUsers userPages).Pairwise
      (fun a b => ("@" ++ a.name : String) ≠ ("@" ++ b.name : String)) :=
    huname.imp (fun hne hcon => hne (string_append_left_cancel "@" hcon))
  obtain ⟨h1, h2, h3, h4⟩ := loadCache_tables chanPages userPages
  have e1 : (loadCache chanPages userPages).channelsById
      = (cacheChannels chanPages).map (fun c => (c.id, c)) :=
    h1.trans ((foldl_mapSet_fresh (fun c => c.id) (cacheChannels chanPages) []
      (fun x _ => List.not_mem_nil _) hcid).trans (List.nil_append _))
  have e2 : (loadCache chanPages userPages).channelsByName
      = (cacheChannels chanPages).map (fun c => (c.name, c)) :=
    h2.trans ((foldl_mapSet_fresh (fun c => c.name) (cacheChannels chanPages) []
      (fun x _ => List.not_mem_nil _) hcname).trans (List.nil_append _))
  have e3 : (loadCache chanPages userPages).usersById
      = (cacheUsers userPages).map (fun u => (u.id, u)) :=
    h3.trans ((foldl_mapSet_fresh (fun u => u.id) (cacheUsers userPages) []
      (fun x _ => List.not_mem_nil _) huid).trans (List.nil_append _))
  have e4 : (loadCache chanPages userPages).usersByName
      = (cacheUsers userPages).map (fun u => ("@" ++ u.name, u)) :=
    h4.trans ((foldl_mapSet_fresh (fun u => "@" ++ u.name) (cacheUsers userPages) []
      (fun x _ => List.not_mem_nil _) hatname).trans (List.nil_append _))
  refine ⟨?_, ?_, ?_, ?_⟩
  · intro k c hk
    rw [e1] at hk
    obtain ⟨hmem, hkey⟩ := mapGet_map_eq_some (fun c => c.id) _ k c hk
    refine ⟨hkey.symm, ?_⟩
    rw [e2]
    exact mapGet_map_of_mem (fun c => c.name) _ c hcname hmem
  · intro k c hk
    rw [e2] at hk
    obtain ⟨hmem, hkey⟩ := mapGet_map_eq_some (fun c => c.name) _ k c hk
    refine ⟨hkey.symm, ?_⟩
    rw [e1]
    exact mapGet_map_of_mem (fun c => c.id) _ c hcid hmem
  · intro k u hk
    rw [e3] at hk
    obtain ⟨hmem, hkey⟩ := mapGet_map_eq_some (fun u => u.id) _ k u hk
    refine ⟨hkey.symm, ?_⟩
    rw [e4]
    exact mapGet_map_of_mem (fun u => "@" ++ u.name) _ u hatname hmem
  · intro k u hk
    rw [e4] at hk
    obtain ⟨hmem, hkey⟩ := mapGet_map_eq_some (fun u => "@" ++ u.name) _ k u hk
    refine ⟨hkey.symm, ?_⟩
    rw [e3]
    exact mapGet_map_of_mem (fun u => u.id) _ u huid hmem

/-- Witness for C4 (amended) on the `sampleCache` build, whose records have
distinct ids and names: the by-id entry for `C100` is reachable through the
by-name table under its name, and the by-name entry for user `@bob` is
reachable through the by-id table. -/
theorem cache_tables_mutually_consistent_witness :
    mapGet sampleCache.channelsByName "#general"
      = some { id := "C100", name := "#general", is_private := false, is_im := false,
               is_mpim := false, topic := some "hello", purpose := none,
               num_members := some 7 } ∧
    mapGet sampleCache.usersById "U2" = some { id := "U2", name := "bob", real_name := "bob" } := by
  have h := cache_tables_mutually_consistent
    [[{ id := "C100", name := "general", is_private := some false, is_im := some false,
        is_mpim := some false, topic := some "hello", purpose := none, num_members := some 7 },
      { id := "C200", name := "secret", is_private := some true, is_im := none,
        is_mpim := none, topic := none, purpose := some "shh", num_members := some 2 },
      { id := "G999", name := "mpdm-trio", is_private := some true, is_im := some false,
        is_mpim := some true, topic := none, purpose := none, num_members := some 3 },
      { id := "X111", name := "im-pair", is_private := some true, is_im := some true,
        is_mpim := some false, topic := none, purpose := none, num_members := some 2 }]]
    [[{ id := "U1", name := "alice", real_name := some "Alice A", deleted := false,
        is_bot := false },
      { id := "U2", name := "bob", real_name := none, deleted := false, is_bot := false },
      { id := "U3", name := "deactivated", real_name := some "Gone", deleted := true,
        is_bot := false }]]
    (by decide) (by decide) (by decide) (by decide)
  exact ⟨(h.1 "C100"
      { id := "C100", name := "#general", is_private := false, is_im := false,
        is_mpim := false, topic := some "hello", purpose := none, num_members := some 7 }
      (by decide)).2,
    (h.2.2.2 "@bob" { id := "U2", name := "bob", real_name := "bob" } (by decide)).2⟩

/-- Counterexample for C4 as stated: a build from a page holding two records
with the same name (`dup`) but different ids.  The first record is reachable
through the by-id table under `C1`, yet the by-name table holds the second
record under the shared name `#dup`, so the first entry is not reachable
through the by-name table under its name — the tables are not mutually
consistent for every page sequence. -/
theorem cache_tables_inconsistent_on_duplicate_names :
    mapGet (loadCache [[{ id := "C1", name := "dup", is_private := some false,
                          is_im := some false, is_mpim := some false, topic := none,
                          purpose := none, num_members := none },
                        { id := "C2", name := "dup", is_private := some false,
                          is_im := some false, is_mpim := some false, topic := none,
                          purpose := none, num_members := none }]] []).channelsById "C1"
      = some { id := "C1", name := "#dup", is_private := false, is_im := false,
               is_mpim := false, topic := none, purpose := none, num_members := none } ∧
    mapGet (loadCache [[{ id := "C1", name := "dup", is_private := some false,
                          is_im := some false, is_mpim := some false, topic := none,
                          purpose := none, num_members := none },
                        { id := "C2", name := "dup", is_private := some false,
                          is_im := some false, is_mpim := some false, topic := none,
                          purpose := none, num_members := none }]] []).channelsByName "#dup"
      ≠ some { id := "C1", name := "#dup", is_private := false, is_im := false,
               is_mpim := false, topic := none, purpose := none, num_members := none } := by
  refine ⟨by decide, by decide⟩

end SlackMcp
